import Mathlib

/-!
Verification of the `workflow-automation` repository's three command-line
tools (config validator, update propagator, version checker) against its
natural-language specification.

The TypeScript sources under `scripts/` are shallowly embedded below.
External collaborators (the GitHub REST client, `JSON.parse`, the Ajv
schema compiler, the file system) are modelled as explicit oracle
parameters recording the outcome of each call; everything the repository
itself computes is translated faithfully, including JavaScript quirks
(`String.prototype.replace` with a string pattern replaces the first
occurrence only, `===` comparisons against `false`/`true`, truthiness of
strings, `||` defaulting).
-/

namespace Wf

/-! ## JavaScript string primitives -/

/-- Decidable check that `pat` occurs as a contiguous sublist of `s`
(JavaScript `String.prototype.includes`, after `toList`). -/
def listContains (pat : List Char) : List Char → Bool
  | [] => pat.isPrefixOf []
  | c :: rest => pat.isPrefixOf (c :: rest) || listContains pat rest

/-- JavaScript `s.includes(sub)`. -/
def strIncludes (s sub : String) : Bool :=
  listContains sub.toList s.toList

/-- Core of `jsReplaceFirst`: replace the first occurrence of `pat` by `rep`. -/
def replaceFirstList (pat rep : List Char) : List Char → List Char
  | [] => if pat.isEmpty then rep else []
  | c :: rest =>
      if pat.isPrefixOf (c :: rest) then rep ++ (c :: rest).drop pat.length
      else c :: replaceFirstList pat rep rest

/-- JavaScript `s.replace(pat, rep)` with a *string* pattern: only the first
occurrence is replaced (unlike Lean's `String.replace`). -/
def jsReplaceFirst (s pat rep : String) : String :=
  ⟨replaceFirstList pat.toList rep.toList s.toList⟩

/-- JavaScript `s.startsWith(pre)`, computed on the character lists. -/
def jsStartsWith (s pre : String) : Bool :=
  pre.toList.isPrefixOf s.toList

/-- JavaScript `s.endsWith(suf)`, computed on the character lists. -/
def jsEndsWith (s suf : String) : Bool :=
  suf.toList.isSuffixOf s.toList

/-- Drop the first `n` characters of a string. -/
def strDrop (s : String) (n : Nat) : String :=
  ⟨s.toList.drop n⟩

/-- Take the first `n` characters of a string
(JavaScript `sha.substring(0, n)`). -/
def strTake (s : String) (n : Nat) : String :=
  ⟨s.toList.take n⟩

/-- JavaScript `tag.replace(/^v/, '')`: strip one leading `v` if present. -/
def stripLeadingV (s : String) : String :=
  if jsStartsWith s "v" then strDrop s 1 else s

/-- The JavaScript regex whitespace class `\s`. -/
def jsWhitespace (c : Char) : Bool :=
  c == '\t' || c == '\n' || c.val == 0x0B || c.val == 0x0C || c == '\r' || c == ' ' ||
  c.val == 0xA0 || c.val == 0x1680 || (0x2000 ≤ c.val && c.val ≤ 0x200A) ||
  c.val == 0x2028 || c.val == 0x2029 || c.val == 0x202F || c.val == 0x205F ||
  c.val == 0x3000 || c.val == 0xFEFF

/-- Longest prefix of the list whose characters satisfy `p`. -/
def takeRun (p : Char → Bool) : List Char → List Char
  | [] => []
  | c :: rest => if p c then c :: takeRun p rest else []

/-- The characters following the first `'@'` of the list, if any
(the regex fragment `[^@]*@` consumes exactly up to the first `'@'`). -/
def afterFirstAt : List Char → Option (List Char)
  | [] => none
  | c :: rest => if c = '@' then some rest else afterFirstAt rest

/-- One attempt of the version regex anchored at the current position:
the literal `signinwithethereum/workflow-automation`, then `[^@]*@`,
then the capture group `([^\s\n]+)` (nonempty run of non-whitespace). -/
def versionAt (lit s : List Char) : Option (List Char) :=
  if lit.isPrefixOf s then
    match afterFirstAt (s.drop lit.length) with
    | none => none
    | some rest =>
        let cap := takeRun (fun c => !jsWhitespace c) rest
        if cap.isEmpty then none else some cap
  else none

/-- Leftmost-match search of the version regex over the whole content. -/
def versionSearch (lit : List Char) : List Char → Option (List Char)
  | [] => none
  | c :: rest =>
      match versionAt lit (c :: rest) with
      | some cap => some cap
      | none => versionSearch lit rest

/-- `VersionChecker.extractVersionFromWorkflow`: match
`/signinwithethereum\/workflow-automation[^@]*@([^\s\n]+)/` against the file
content, then strip a leading `v` from the captured token. -/
def extractVersionFromWorkflow (content : String) : Option String :=
  match versionSearch ("signinwithethereum/workflow-automation".toList) content.toList with
  | none => none
  | some cap =>
      let version : String := ⟨cap⟩
      some (if jsStartsWith version "v" then strDrop version 1 else version)

/-! ## Remote-call outcomes -/

/-- An error thrown by the GitHub client: an optional HTTP status and a
message (a plain `Error` carries no status). -/
structure GhError where
  status : Option Nat
  message : String
  deriving DecidableEq, Repr

/-! ## Version checker (`update-propagation.ts`, second document) -/

/-- Status of a `RepositoryInfo` entry. -/
inductive RStatus
  | upToDate
  | outdated
  | missing
  | error
  deriving DecidableEq, Repr

/-- `RepositoryInfo` (timestamps elided: `lastChecked` is wall-clock
environment data used only for display). -/
structure RepoInfo where
  owner : String
  repo : String
  workflowPath : String
  configProfile : Option String
  currentVersion : Option String
  status : RStatus
  errorMessage : Option String
  pullRequestUrl : Option String
  deriving DecidableEq, Repr

/-- A repository target as read from the repository-list document. -/
structure Target where
  owner : String
  repo : String
  workflowPath : String
  configProfile : Option String
  enabled : Bool
  deriving DecidableEq, Repr

/-- `getInstallationOctokit`: a 404 from `apps.getRepoInstallation` is
rethrown as a plain `Error` (no status) with a "not installed" message;
any other failure is rethrown unchanged. -/
def getInstallationOctokitE (owner repo : String) (call : Except GhError Unit) :
    Except GhError Unit :=
  match call with
  | .ok _ => .ok ()
  | .error e =>
      if e.status = some 404 then
        .error ⟨none, "GitHub App not installed on " ++ owner ++ "/" ++ repo⟩
      else .error e

/-- Outcomes of the remote calls made by `checkRepositoryVersion` for one
target: the installation lookup, the workflow-file fetch (`some content`
when the response has a `content` field, `none` otherwise), and the
open-pull-request listing (list of `html_url`s). -/
structure CheckCalls where
  installation : Except GhError Unit
  getContent : Except GhError (Option String)
  pullsList : Except GhError (List String)

/-- The `catch` block of `checkRepositoryVersion`: it mutates whatever
`repoInfo` state was built before the throw (in particular it does *not*
reset `currentVersion`). -/
def checkCatch (r : RepoInfo) (e : GhError) : RepoInfo :=
  if strIncludes e.message "not installed" then
    { r with
      status := .error
      errorMessage := some "GitHub App not installed on repository" }
  else if e.status = some 404 then
    { r with
      status := .missing
      errorMessage := some "Workflow file not found or repository not accessible" }
  else
    { r with status := .error, errorMessage := some e.message }

/-- JavaScript truthiness of a nullable string: `null` and the empty
string are falsy. -/
def jsTruthy : Option String → Bool
  | none => false
  | some v => !(v = "")

/-- `VersionChecker.checkRepositoryVersion`: build the per-target
`RepositoryInfo`: the extracted token is assigned to `currentVersion`
first, then `if (repoInfo.currentVersion)` tests its truthiness — so a
token that strips to the empty string is stored (non-null) while the
status becomes `error`; throws are translated via `checkCatch`. -/
def checkRepositoryVersion (t : Target) (c : CheckCalls) : RepoInfo :=
  let base : RepoInfo :=
    { owner := t.owner, repo := t.repo, workflowPath := t.workflowPath,
      configProfile := t.configProfile, currentVersion := none,
      status := .error, errorMessage := none, pullRequestUrl := none }
  match getInstallationOctokitE t.owner t.repo c.installation with
  | .error e => checkCatch base e
  | .ok _ =>
    match c.getContent with
    | .error e => checkCatch base e
    | .ok fileData =>
      let afterFetch : RepoInfo :=
        match fileData with
        | some content =>
          let withVersion :=
            { base with currentVersion := extractVersionFromWorkflow content }
          if jsTruthy withVersion.currentVersion then
            { withVersion with status := .upToDate }
          else
            { withVersion with
              status := .error
              errorMessage := some "Could not extract version from workflow file" }
        | none =>
            { base with
              status := .error
              errorMessage := some "Workflow file is not a regular file" }
      match c.pullsList with
      | .error e => checkCatch afterFetch e
      | .ok pulls =>
        match pulls with
        | [] => afterFetch
        | url :: _ => { afterFetch with pullRequestUrl := some url }

/-- `VersionChecker.updateVersionStatus`, one entry: entries already in
status `error`/`missing` are skipped; otherwise the status becomes
`up-to-date` exactly on the three token comparisons, else `outdated`. -/
def finalizeOne (central : String) (r : RepoInfo) : RepoInfo :=
  if r.status = .error ∨ r.status = .missing then r
  else if r.currentVersion = some central ∨
          r.currentVersion = some ("v" ++ central) ∨
          r.currentVersion = some "main" then
    { r with status := .upToDate }
  else
    { r with status := .outdated }

/-- `VersionChecker.updateVersionStatus`: the in-place loop over the list. -/
def updateVersionStatus (rs : List RepoInfo) (central : String) : List RepoInfo :=
  rs.map (finalizeOne central)

/-- Outcomes of the remote calls made by `getCentralVersion`: the
installation lookup and release fetch of the first attempt, then (on the
404 fallback path) a second installation lookup and the commit listing. -/
structure CentralCalls where
  installation1 : Except GhError Unit
  getLatestRelease : Except GhError String
  installation2 : Except GhError Unit
  listCommits : Except GhError (List String)

/-- The fallback of `getCentralVersion`:
`commits[0]?.sha.substring(0, 7) || 'unknown'` (an empty list gives
`undefined`, and an empty 7-character prefix is falsy). -/
def commitFallback (commits : List String) : String :=
  match commits with
  | [] => "unknown"
  | sha :: _ =>
      let short := strTake sha 7
      if short = "" then "unknown" else short

/-- The try block of `getCentralVersion`: installation lookup for the
central repository, then the latest-release fetch. -/
def centralTryBlock (c : CentralCalls) : Except GhError String :=
  match getInstallationOctokitE "signinwithethereum" "workflow-automation" c.installation1 with
  | .error e => .error e
  | .ok _ => c.getLatestRelease

/-- The inner try of `getCentralVersion`'s 404 handler: installation
lookup again, then the commit listing. -/
def centralFallback (c : CentralCalls) : Except GhError (List String) :=
  match getInstallationOctokitE "signinwithethereum" "workflow-automation" c.installation2 with
  | .error e => .error e
  | .ok _ => c.listCommits

/-- `VersionChecker.getCentralVersion`: prefer the latest release tag with
a leading `v` stripped; on a 404 (from the try block) fall back to the
short sha of the latest commit, returning `"unknown"` if that inner try
fails; any non-404 failure of the try block is rethrown. -/
def getCentralVersion (c : CentralCalls) : Except GhError String :=
  match centralTryBlock c with
  | .ok tag => .ok (stripLeadingV tag)
  | .error e =>
      if e.status = some 404 then
        match centralFallback c with
        | .ok commits => .ok (commitFallback commits)
        | .error _ => .ok "unknown"
      else .error e

/-! ## Update propagator (`update-propagation.ts`, first document)

Remote operations are both *observable* (recorded in a trace, so that
"performs zero remote operations" is expressible) and *fallible* (their
outcomes are supplied by per-call oracle fields). -/

/-- One remote GitHub operation performed by the propagator. -/
inductive RemoteOp
  | getRepoInstallation (owner repo : String)
  | getContent (owner repo path : String)
  | reposGet (owner repo : String)
  | getBranch (owner repo branch : String)
  | createRef (owner repo ref : String)
  | updateRef (owner repo ref : String)
  | createOrUpdateFile (owner repo path : String)
  | pullsCreate (owner repo : String)
  | addLabels (owner repo : String)
  deriving DecidableEq, Repr

/-- The propagator's effect: a computation returns either a thrown
`GhError` or a value, together with the remote operations it issued
(issued operations are kept even when a throw follows). -/
structure PropRes (α : Type) where
  res : Except GhError α
  ops : List RemoteOp

instance : Monad PropRes where
  pure a := ⟨.ok a, []⟩
  bind m f :=
    match m.res with
    | .error e => ⟨.error e, m.ops⟩
    | .ok a => ⟨(f a).res, m.ops ++ (f a).ops⟩

/-- Record one remote operation. -/
def record (op : RemoteOp) : PropRes Unit :=
  ⟨.ok (), [op]⟩

/-- Throw a GitHub error. -/
def throwG {α : Type} (e : GhError) : PropRes α :=
  ⟨.error e, []⟩

/-- Turn a call outcome into the monad (rethrow errors). -/
def fromCall {α : Type} (r : Except GhError α) : PropRes α :=
  match r with
  | .ok a => pure a
  | .error e => throwG e

/-- `UpdatePropagator.getInstallationOctokit` as a recorded remote call. -/
def getInstallationOctokitM (owner repo : String) (call : Except GhError Unit) :
    PropRes Unit := do
  record (.getRepoInstallation owner repo)
  fromCall (getInstallationOctokitE owner repo call)

/-- Outcomes of the remote calls made by one invocation of `needsUpdate`. -/
structure NeedsUpdateCalls where
  installation : Except GhError Unit
  getContent : Except GhError (Option String)

/-- Outcomes of the remote calls made by one invocation of `updateFile`. -/
structure FileCalls where
  getExisting : Except GhError (Option String)
  putFile : Except GhError Unit

/-- Outcomes of every remote call a single target's processing may make:
`needsUpdate` is invoked twice (once inside `updateRepository`, once in the
`run` loop's tally check), so it has two outcome records. -/
structure UpdateCalls where
  needs1 : NeedsUpdateCalls
  installation2 : Except GhError Unit
  repoGet : Except GhError String
  getBranch : Except GhError String
  createRef : Except GhError Unit
  updateRef : Except GhError Unit
  file1 : FileCalls
  file2 : FileCalls
  prCreate : Except GhError String
  prLabels : Except GhError Unit
  needs3 : NeedsUpdateCalls

/-- The parts of `UpdateConfig` the propagation logic reads. -/
structure PropConfig where
  workflowVersion : String
  dryRun : Bool

/-- `UpdatePropagator.needsUpdate`: fetch the workflow file; a 404 means
the file needs creation (`true`); otherwise the file needs update exactly
when its content does not mention `@v<version>`. -/
def needsUpdateM (t : Target) (nc : NeedsUpdateCalls) (version : String) :
    PropRes Bool := do
  getInstallationOctokitM t.owner t.repo nc.installation
  record (.getContent t.owner t.repo t.workflowPath)
  match nc.getContent with
  | .error e => if e.status = some 404 then pure true else throwG e
  | .ok (some content) => pure (!(strIncludes content ("@v" ++ version)))
  | .ok none => pure true

/-- `UpdatePropagator.updateFile`: read any existing file's sha (a 404 is
tolerated, meaning the file will be created), then write the content. -/
def updateFileM (t : Target) (path : String) (fc : FileCalls) : PropRes Unit := do
  record (.getContent t.owner t.repo path)
  match fc.getExisting with
  | .error e => if e.status = some 404 then pure () else throwG e
  | .ok _ => pure ()
  record (.createOrUpdateFile t.owner t.repo path)
  fromCall fc.putFile

/-- `UpdatePropagator.createPullRequest`: a 422 from `pulls.create` means
the pull request already exists and is treated as success; label
attachment is attempted only on a fresh pull request and its failure is
caught (best effort). -/
def createPullRequestM (t : Target) (pr : Except GhError String)
    (labels : Except GhError Unit) : PropRes Unit := do
  record (.pullsCreate t.owner t.repo)
  match pr with
  | .error e => if e.status = some 422 then pure () else throwG e
  | .ok _ => do
      record (.addLabels t.owner t.repo)
      match labels with
      | .ok _ => pure ()
      | .error _ => pure ()

/-- The deterministic branch name used by the propagator. -/
def branchNameOf (version : String) : String :=
  "workflow-automation/update-v" ++ version

/-- `UpdatePropagator.updateRepository`: skip disabled targets, skip
up-to-date targets, stop before any mutation in dry-run mode; otherwise
create (or, on a 422, update) the dedicated branch, write the two workflow
files, and open the pull request. The inner try/catch of the source logs
and rethrows, which is the identity on outcomes. -/
def updateRepositoryM (cfg : PropConfig) (t : Target) (o : UpdateCalls) :
    PropRes Unit := do
  if !t.enabled then pure ()
  else do
    let needs ← needsUpdateM t o.needs1 cfg.workflowVersion
    if !needs then pure ()
    else if cfg.dryRun then pure ()
    else do
      let branchName := branchNameOf cfg.workflowVersion
      getInstallationOctokitM t.owner t.repo o.installation2
      record (.reposGet t.owner t.repo)
      let defaultBranch ← fromCall o.repoGet
      record (.getBranch t.owner t.repo defaultBranch)
      let _sha ← fromCall o.getBranch
      record (.createRef t.owner t.repo branchName)
      match o.createRef with
      | .ok _ => pure ()
      | .error e =>
          if e.status = some 422 then do
            record (.updateRef t.owner t.repo branchName)
            fromCall o.updateRef
          else throwG e
      updateFileM t t.workflowPath o.file1
      updateFileM t (jsReplaceFirst t.workflowPath "ai-review.yml" "ai-on-demand.yml") o.file2
      createPullRequestM t o.prCreate o.prLabels

/-- Per-target outcome in the propagator's tally. -/
inductive POutcome
  | success
  | skipped
  | failed
  deriving DecidableEq, Repr

/-- The body of the `run` loop's try block for one target: update, then
re-evaluate `repo.enabled && needsUpdate(repo)` to classify the target. -/
def attemptTarget (cfg : PropConfig) (t : Target) (o : UpdateCalls) :
    PropRes POutcome := do
  updateRepositoryM cfg t o
  let b ← if t.enabled then needsUpdateM t o.needs3 cfg.workflowVersion else pure false
  pure (if b then .success else .skipped)

/-- One iteration of `UpdatePropagator.run`'s loop: any throw from the try
block is caught and tallied as a failure for that target only. -/
def processTarget (cfg : PropConfig) (t : Target) (o : UpdateCalls) :
    POutcome × List RemoteOp :=
  let r := attemptTarget cfg t o
  (match r.res with
   | .ok oc => oc
   | .error _ => .failed, r.ops)

/-- The `{succeeded, skipped, failed}` tally. -/
structure Tally where
  success : Nat
  skipped : Nat
  failed : Nat
  deriving DecidableEq, Repr

/-- Increment the tally for one outcome. -/
def Tally.add (t : Tally) : POutcome → Tally
  | .success => { t with success := t.success + 1 }
  | .skipped => { t with skipped := t.skipped + 1 }
  | .failed => { t with failed := t.failed + 1 }

/-- `UpdatePropagator.run`'s loop over the configured repositories, in
list order, threading the tally and accumulating the trace. -/
def runLoop (cfg : PropConfig) (acc : Tally) :
    List (Target × UpdateCalls) → Tally × List RemoteOp
  | [] => (acc, [])
  | tc :: rest =>
      let pr := processTarget cfg tc.1 tc.2
      let later := runLoop cfg (acc.add pr.1) rest
      (later.1, pr.2 ++ later.2)

/-- `UpdatePropagator.run`: process every target, returning the printed
tally and the full trace of remote operations. -/
def runPropagation (cfg : PropConfig) (tos : List (Target × UpdateCalls)) :
    Tally × List RemoteOp :=
  runLoop cfg ⟨0, 0, 0⟩ tos

/-- The propagator's exit code: non-zero exactly when some target failed. -/
def propagationExitCode (cfg : PropConfig) (tos : List (Target × UpdateCalls)) : Nat :=
  if (runPropagation cfg tos).1.failed > 0 then 1 else 0

/-! ## Config validator (`config-validator.ts`)

Configuration documents are modelled at the shapes the validator reads
(optional sections with optional fields, JSON numbers as rationals);
`JSON.parse` and the compiled Ajv schema check are oracle parameters, as
they are external libraries. -/

/-- The `review_rules` section, at the fields the validator reads. -/
structure ReviewRules where
  min_test_coverage : Option Rat := none
  max_complexity : Option Rat := none
  max_function_length : Option Rat := none
  check_tests : Option Bool := none
  check_documentation : Option Bool := none
  deriving DecidableEq

/-- The `documentation_rules` section. -/
structure DocumentationRules where
  require_function_docs : Option Bool := none
  require_class_docs : Option Bool := none
  deriving DecidableEq

/-- The `exclusions` section; both pattern lists are optional. -/
structure Exclusions where
  file_patterns : Option (List String) := none
  directory_patterns : Option (List String) := none
  deriving DecidableEq

/-- The `notification_settings` section. -/
structure NotificationSettings where
  slack_webhook : Option String := none
  discord_webhook : Option String := none
  deriving DecidableEq

/-- The `response_settings` section, at the field the validator reads. -/
structure ResponseSettings where
  max_response_length : Option Rat := none
  deriving DecidableEq

/-- One per-language toggle block under `language_specific`. -/
structure LangToggles where
  strict_mode : Option Bool := none
  check_type_hints : Option Bool := none
  deriving DecidableEq

/-- The `language_specific` section. -/
structure LanguageSpecific where
  typescript : Option LangToggles := none
  python : Option LangToggles := none
  deriving DecidableEq

/-- A parsed configuration document, at the fields the validator reads.
`security_rules` keeps the key order of the JSON object. -/
structure CfgDoc where
  model : Option String := none
  review_rules : Option ReviewRules := none
  security_rules : Option (List (String × Bool)) := none
  exclusions : Option Exclusions := none
  response_settings : Option ResponseSettings := none
  language_specific : Option LanguageSpecific := none
  notification_settings : Option NotificationSettings := none
  documentation_rules : Option DocumentationRules := none
  deriving DecidableEq

/-- `ValidationResult`. -/
structure ValidationResult where
  file : String
  valid : Bool
  errors : List String
  warnings : List String
  deriving DecidableEq, Repr

/-- Append one error (JavaScript `result.errors.push(...)`). -/
def pushError (r : ValidationResult) (e : String) : ValidationResult :=
  { r with errors := r.errors ++ [e] }

/-- Append one warning (JavaScript `result.warnings.push(...)`). -/
def pushWarning (r : ValidationResult) (w : String) : ValidationResult :=
  { r with warnings := r.warnings ++ [w] }

/-- JavaScript `x?.f > bound` for an optional numeric field:
`undefined` compares false. -/
def optGT (x : Option Rat) (bound : Rat) : Bool :=
  match x with
  | some q => bound < q
  | none => false

/-- JavaScript `x?.f < bound` for an optional numeric field. -/
def optLT (x : Option Rat) (bound : Rat) : Bool :=
  match x with
  | some q => q < bound
  | none => false

/-- One Ajv validation error, at the fields `formatAjvError` reads
(`params.limit` is a number; configuration limits are integral). -/
structure AjvError where
  keyword : String
  instancePath : String
  message : String
  missingProperty : String := ""
  typeName : String := ""
  allowedValues : List String := []
  limit : Int := 0
  deriving DecidableEq

/-- `ConfigValidator.formatAjvError`. -/
def formatAjvError (e : AjvError) : String :=
  let instancePath := if e.instancePath = "" then "root" else e.instancePath
  if e.keyword = "required" then
    "Missing required property: " ++ e.missingProperty
  else if e.keyword = "type" then
    "Property '" ++ instancePath ++ "' should be " ++ e.typeName
  else if e.keyword = "enum" then
    "Property '" ++ instancePath ++ "' should be one of: " ++
      String.intercalate ", " e.allowedValues
  else if e.keyword = "minimum" then
    "Property '" ++ instancePath ++ "' should be >= " ++ toString e.limit
  else if e.keyword = "maximum" then
    "Property '" ++ instancePath ++ "' should be <= " ++ toString e.limit
  else
    instancePath ++ ": " ++ e.message

/-- Outcome of `this.ajv.compile(this.schema)` applied to a document:
on failure Ajv exposes `validate.errors`, which may be absent. -/
inductive SchemaOutcome
  | valid
  | invalid (errors : Option (List AjvError))

/-- `addCustomWarnings`, check 1: `review_rules?.min_test_coverage < 50`. -/
def cwCoverage (config : CfgDoc) (r : ValidationResult) : ValidationResult :=
  if optLT (config.review_rules.bind (·.min_test_coverage)) 50 then
    pushWarning r "Low test coverage requirement (< 50%) may indicate insufficient testing standards"
  else r

/-- `addCustomWarnings`, check 2: `review_rules?.max_complexity > 20`. -/
def cwComplexity (config : CfgDoc) (r : ValidationResult) : ValidationResult :=
  if optGT (config.review_rules.bind (·.max_complexity)) 20 then
    pushWarning r "High complexity threshold (> 20) may allow overly complex code"
  else r

/-- `addCustomWarnings`, check 3: `review_rules?.max_function_length > 100`. -/
def cwFunctionLength (config : CfgDoc) (r : ValidationResult) : ValidationResult :=
  if optGT (config.review_rules.bind (·.max_function_length)) 100 then
    pushWarning r "High function length limit (> 100) may allow overly long functions"
  else r

/-- `addCustomWarnings`, check 4: any security rule `=== false`, naming
every disabled rule in one combined message. -/
def cwSecurity (config : CfgDoc) (r : ValidationResult) : ValidationResult :=
  match config.security_rules with
  | some rules =>
      if rules.any (fun rule => rule.2 = false) then
        pushWarning r ("Disabled security checks: " ++
          String.intercalate ", " ((rules.filter (fun rule => rule.2 = false)).map (·.1)))
      else r
  | none => r

/-- `addCustomWarnings`, check 5: `exclusions?.file_patterns?.length > 20`. -/
def cwExclusionCount (config : CfgDoc) (r : ValidationResult) : ValidationResult :=
  if optGT ((config.exclusions.bind (·.file_patterns)).map (fun l => (l.length : Rat))) 20 then
    pushWarning r "Large number of file exclusion patterns may hide important files from review"
  else r

/-- `addCustomWarnings`, check 6: `response_settings?.max_response_length > 5000`. -/
def cwResponseLength (config : CfgDoc) (r : ValidationResult) : ValidationResult :=
  if optGT (config.response_settings.bind (·.max_response_length)) 5000 then
    pushWarning r "Very high response length limit may lead to overly verbose responses"
  else r

/-- `addCustomWarnings`, check 7: a truthy `model` containing `haiku`. -/
def cwModel (config : CfgDoc) (r : ValidationResult) : ValidationResult :=
  match config.model with
  | some m =>
      if m ≠ "" ∧ strIncludes m "haiku" then
        pushWarning r "Using Haiku model may provide less comprehensive reviews than Sonnet"
      else r
  | none => r

/-- `addCustomWarnings`, check 8: `typescript?.strict_mode === false`. -/
def cwTypescript (config : CfgDoc) (r : ValidationResult) : ValidationResult :=
  if (config.language_specific.bind (·.typescript)).bind (·.strict_mode) = some false then
    pushWarning r "TypeScript strict mode disabled - may miss type-related issues"
  else r

/-- `addCustomWarnings`, check 9: `python?.check_type_hints === false`. -/
def cwPython (config : CfgDoc) (r : ValidationResult) : ValidationResult :=
  if (config.language_specific.bind (·.python)).bind (·.check_type_hints) = some false then
    pushWarning r "Python type hint checking disabled - may miss type-related issues"
  else r

/-- `ConfigValidator.addCustomWarnings`: best-practice warnings, evaluated
only for schema-valid documents, in source order. -/
def addCustomWarnings (config : CfgDoc) (r : ValidationResult) : ValidationResult :=
  cwPython config (cwTypescript config (cwModel config (cwResponseLength config
    (cwExclusionCount config (cwSecurity config (cwFunctionLength config
      (cwComplexity config (cwCoverage config r))))))))

/-- The warning text of the redundant-exclusion check. -/
def redundantMsg (filePattern dirPattern : String) : String :=
  "Potential redundant exclusion: file pattern '" ++ filePattern ++
    "' may be covered by directory pattern '" ++ dirPattern ++ "'"

/-- The nested loop of the redundant-exclusion check: for every
(file pattern, directory pattern) pair whose file pattern contains the
directory pattern with its first `/` removed, push one warning. -/
def redundantLoop (filePatterns dirPatterns : List String)
    (r : ValidationResult) : ValidationResult :=
  filePatterns.foldl (fun acc filePattern =>
    dirPatterns.foldl (fun acc2 dirPattern =>
      if strIncludes filePattern (jsReplaceFirst dirPattern "/" "") then
        pushWarning acc2 (redundantMsg filePattern dirPattern)
      else acc2) acc) r

/-- `performSemanticValidation`, check 1: test coverage set (> 0) while
`check_tests === false` is a contradiction. -/
def scTestCoverage (config : CfgDoc) (r : ValidationResult) : ValidationResult :=
  if config.review_rules.bind (·.check_tests) = some false ∧
      optGT (config.review_rules.bind (·.min_test_coverage)) 0 then
    pushError r "Inconsistent configuration: test coverage specified but test checking disabled"
  else r

/-- `performSemanticValidation`, check 2: documentation required while
`check_documentation === false` is a contradiction. -/
def scDocumentation (config : CfgDoc) (r : ValidationResult) : ValidationResult :=
  if config.review_rules.bind (·.check_documentation) = some false ∧
      (config.documentation_rules.bind (·.require_function_docs) = some true ∨
       config.documentation_rules.bind (·.require_class_docs) = some true) then
    pushError r "Inconsistent configuration: documentation requirements specified but documentation checking disabled"
  else r

/-- `performSemanticValidation`, check 3: the redundant-exclusion nested
loop, run only when both pattern lists are present (JavaScript truthiness:
an empty array is truthy). -/
def scExclusions (config : CfgDoc) (r : ValidationResult) : ValidationResult :=
  match config.exclusions.bind (·.file_patterns),
        config.exclusions.bind (·.directory_patterns) with
  | some filePatterns, some dirPatterns => redundantLoop filePatterns dirPatterns r
  | _, _ => r

/-- `performSemanticValidation`, check 4: a truthy Slack webhook must use
the fixed Slack prefix; mismatch is an error. -/
def scSlack (config : CfgDoc) (r : ValidationResult) : ValidationResult :=
  match config.notification_settings.bind (·.slack_webhook) with
  | some url =>
      if url ≠ "" ∧ ¬ jsStartsWith url "https://hooks.slack.com/" then
        pushError r "Invalid Slack webhook URL format"
      else r
  | none => r

/-- `performSemanticValidation`, check 5: a truthy Discord webhook must
use the fixed Discord prefix; mismatch is an error. -/
def scDiscord (config : CfgDoc) (r : ValidationResult) : ValidationResult :=
  match config.notification_settings.bind (·.discord_webhook) with
  | some url =>
      if url ≠ "" ∧ ¬ jsStartsWith url "https://discord.com/api/webhooks/" then
        pushError r "Invalid Discord webhook URL format"
      else r
  | none => r

/-- `ConfigValidator.performSemanticValidation`: contradiction errors,
redundant-exclusion warnings, and webhook-prefix errors, in source order.
A webhook field participates only when truthy (nonempty). -/
def performSemanticValidation (config : CfgDoc) (r : ValidationResult) :
    ValidationResult :=
  scDiscord config (scSlack config (scExclusions config
    (scDocumentation config (scTestCoverage config r))))

/-- The file system as the validator sees it. -/
structure FileSys where
  present : String → Bool
  read : String → String

/-- `ConfigValidator.validateConfig`: absence and parse failures
short-circuit with a single error; otherwise `valid` is set from the
schema outcome, best-practice warnings are added only when schema-valid,
schema violations are formatted into errors, and the semantic validation
runs regardless of the schema outcome. -/
def validateConfig (parse : String → Except String CfgDoc)
    (sv : CfgDoc → SchemaOutcome) (fs : FileSys) (filePath : String) :
    ValidationResult :=
  let result : ValidationResult :=
    { file := filePath, valid := false, errors := [], warnings := [] }
  if ¬ fs.present filePath then
    pushError result "Configuration file not found"
  else
    match parse (fs.read filePath) with
    | .error msg => pushError result ("JSON parsing error: " ++ msg)
    | .ok config =>
      let afterSchema : ValidationResult :=
        match sv config with
        | .valid => addCustomWarnings config { result with valid := true }
        | .invalid none => { result with valid := false }
        | .invalid (some errs) =>
            errs.foldl (fun acc e => pushError acc (formatAjvError e))
              { result with valid := false }
      performSemanticValidation config afterSchema

/-- Bump one message's count in a summary histogram
(`commonErrors[error] = (commonErrors[error] || 0) + 1`). -/
def bumpCount (f : String → Nat) (m : String) : String → Nat :=
  fun k => if k = m then f k + 1 else f k

/-- `ConfigValidator.generateSummary`, error half: the `commonErrors`
record, represented by its lookup function (absent keys count 0). -/
def generateSummaryErrors (results : List ValidationResult) : String → Nat :=
  results.foldl (fun f r => r.errors.foldl bumpCount f) (fun _ => 0)

/-- `ConfigValidator.generateSummary`, warning half. -/
def generateSummaryWarnings (results : List ValidationResult) : String → Nat :=
  results.foldl (fun f r => r.warnings.foldl bumpCount f) (fun _ => 0)

/-- The fields of `ValidationReport` the claims are about (`timestamp` and
`schemaVersion` are display metadata from the environment). -/
structure ValidationReport where
  totalFiles : Nat
  validFiles : Nat
  invalidFiles : Nat
  results : List ValidationResult
  commonErrors : String → Nat
  commonWarnings : String → Nat

/-- `ConfigValidator.run` after discovery: validate every file in order,
counting valid and invalid results, and build the summary. -/
def runValidator (parse : String → Except String CfgDoc)
    (sv : CfgDoc → SchemaOutcome) (fs : FileSys) (configFiles : List String) :
    ValidationReport :=
  let results := configFiles.map (validateConfig parse sv fs)
  { totalFiles := configFiles.length
    validFiles := (results.filter (fun r => r.valid)).length
    invalidFiles := (results.filter (fun r => !r.valid)).length
    results := results
    commonErrors := generateSummaryErrors results
    commonWarnings := generateSummaryWarnings results }

/-! ## Configuration file discovery (`findConfigFiles`) -/

/-- The characters of the basename: everything after the last `/`. -/
def afterLastSlash (l : List Char) : List Char :=
  l.foldl (fun acc c => if c = '/' then [] else acc ++ [c]) []

/-- Index of the first element equal to `'.'`. -/
def idxOfDot : List Char → Option Nat
  | [] => none
  | c :: rest => if c = '.' then some 0 else (idxOfDot rest).map (· + 1)

/-- Node's `path.extname`: the suffix of the basename from its last dot,
empty when there is no dot, when the only dot leads the basename
(dotfiles have no extension), or for the special basename `..`. -/
def extname (p : String) : String :=
  let b := afterLastSlash p.toList
  if b = ['.', '.'] then ""
  else
    match idxOfDot b.reverse with
    | none => ""
    | some i =>
        let pos := b.length - 1 - i
        if pos = 0 then "" else ⟨b.drop pos⟩

/-- Node's `path.join` for one separator (dot-segment normalization is not
exercised by the validator's inputs). -/
def joinPath (dir file : String) : String :=
  if jsEndsWith dir "/" then dir ++ file else dir ++ "/" ++ file

/-- The file system as discovery sees it: existence, the directory test
(`Bun.file(path).size === undefined`), and directory listing
(`readdirSync` may throw). -/
structure DiscFS where
  present : String → Bool
  isDirectory : String → Bool
  readdir : String → Except String (List String)

/-- The loop body of `findConfigFiles` for one configured path. -/
def discoverStep (fs : DiscFS) (files : List String) (configPath : String) :
    List String :=
  if ¬ fs.present configPath then files
  else if fs.isDirectory configPath then
    match fs.readdir configPath with
    | .error _ => files
    | .ok dirFiles =>
        files ++ (dirFiles.filter (fun f => extname f = ".json")).map
          (fun f => joinPath configPath f)
  else
    if extname configPath = ".json" then files ++ [configPath] else files

/-- `ConfigValidator.findConfigFiles`: nonexistent paths are skipped with
a warning; a directory contributes its immediate children with a `.json`
extension; an explicit file contributes itself only when it has a `.json`
extension; a listing error skips the path. -/
def findConfigFiles (fs : DiscFS) (configPaths : List String) : List String :=
  configPaths.foldl (discoverStep fs) []

/-! ## Comprehension forms used in theorem statements -/

/-- The redundant-exclusion messages of all matching (file pattern,
directory pattern) pairs, in loop order. -/
def pairMsgs (filePatterns dirPatterns : List String) : List String :=
  filePatterns.flatMap (fun fp =>
    (dirPatterns.filter (fun dp => strIncludes fp (jsReplaceFirst dp "/" ""))).map
      (redundantMsg fp))

/-- Per-path resolution of the discovery rules: a nonexistent path yields
nothing, a directory yields its immediate `.json`-extension children
(nothing on a listing error), and an explicit file yields itself exactly
when it has a `.json` extension. -/
def resolvePath (fs : DiscFS) (p : String) : List String :=
  if ¬ fs.present p then []
  else if fs.isDirectory p then
    match fs.readdir p with
    | .error _ => []
    | .ok dirFiles =>
        (dirFiles.filter (fun f => extname f = ".json")).map (fun f => joinPath p f)
  else if extname p = ".json" then [p] else []

/-! ## Concrete fixtures used by closed theorems and witnesses -/

/-- Schema oracle accepting every document. -/
def schemaAccepts : CfgDoc → SchemaOutcome := fun _ => .valid

/-- A file system in which every path exists with an empty body. -/
def fsConst : FileSys := { present := fun _ => true, read := fun _ => "" }

/-- Parse oracle producing the contradictory document of the spec
scenario: `check_tests = false` with `min_test_coverage = 80`. -/
def parseContradiction : String → Except String CfgDoc := fun _ =>
  .ok { review_rules := some { check_tests := some false, min_test_coverage := some 80 } }

/-- Parse oracle producing a document whose file-pattern list repeats the
same pattern, so one result carries the same warning twice. -/
def parseDupPatterns : String → Except String CfgDoc := fun _ =>
  .ok { exclusions := some { file_patterns := some ["foo", "foo"],
                             directory_patterns := some ["f/o"] } }

/-- An enabled example target. -/
def targetEx : Target :=
  { owner := "o", repo := "r", workflowPath := ".github/workflows/ai-review.yml",
    configProfile := none, enabled := true }

/-- Checker calls where the workflow file is fetched and a version token
extracted, but the final open-pull-request listing fails with a 404. -/
def checkCallsPullsFail : CheckCalls :=
  { installation := .ok ()
    getContent := .ok (some "signinwithethereum/workflow-automation@v1.2.3")
    pullsList := .error ⟨some 404, "gone"⟩ }

/-- Checker calls whose installation lookup fails with a 404 and whose
open-pull-request listing succeeds. -/
def checkCallsInstall404 : CheckCalls :=
  { installation := .error ⟨some 404, "Not Found"⟩
    getContent := .ok none
    pullsList := .ok [] }

/-- Checker calls where every call succeeds and the workflow file's
version token is captured as a bare `v`, which strips to the empty
string. -/
def checkCallsBareV : CheckCalls :=
  { installation := .ok ()
    getContent := .ok (some "signinwithethereum/workflow-automation@v")
    pullsList := .ok [] }

/-- Central-version calls whose release lookup fails with a 500. -/
def centralCalls500 : CentralCalls :=
  { installation1 := .ok (), getLatestRelease := .error ⟨some 500, "boom"⟩,
    installation2 := .ok (), listCommits := .ok [] }

/-- Central-version calls whose release lookup 404s and whose commit
listing succeeds. -/
def centralCalls404 : CentralCalls :=
  { installation1 := .ok (), getLatestRelease := .error ⟨some 404, "Not Found"⟩,
    installation2 := .ok (), listCommits := .ok ["abcdef1234"] }

/-- Successful `needsUpdate` calls reporting an outdated workflow file. -/
def needsOk : NeedsUpdateCalls :=
  { installation := .ok (), getContent := .ok (some "uses: x@v1.0.0") }

/-- Propagator calls that all succeed except the best-effort label
attachment, which fails with a 500. -/
def callsLabelFail : UpdateCalls :=
  { needs1 := needsOk, installation2 := .ok (), repoGet := .ok "main",
    getBranch := .ok "abc123", createRef := .ok (), updateRef := .ok (),
    file1 := ⟨.ok none, .ok ()⟩, file2 := ⟨.ok none, .ok ()⟩,
    prCreate := .ok "pr1", prLabels := .error ⟨some 500, "boom"⟩, needs3 := needsOk }

/-- Propagator calls whose repository metadata fetch fails with a 500. -/
def callsRepoGetFail : UpdateCalls :=
  { callsLabelFail with repoGet := .error ⟨some 500, "down"⟩, prLabels := .ok () }

/-- An example propagator configuration. -/
def cfgEx : PropConfig := { workflowVersion := "1.2.3", dryRun := false }

/-- A discovery file system where every path is an existing plain file. -/
def discYaml : DiscFS :=
  { present := fun _ => true, isDirectory := fun _ => false,
    readdir := fun _ => .ok [] }

/-- An example checker entry with an extracted token. -/
def repoInfoEx : RepoInfo :=
  { owner := "o", repo := "r", workflowPath := "p", configProfile := none,
    currentVersion := some "1.2.3", status := .upToDate,
    errorMessage := none, pullRequestUrl := none }

/-- First of a content-identical pair of file systems. -/
def fsW1 : FileSys := { present := fun _ => true, read := fun _ => "doc" }

/-- Second of a content-identical pair of file systems: a different
function with the same observable content on `a.json`. -/
def fsW2 : FileSys :=
  { present := fun _ => true, read := fun p => if p = "a.json" then "doc" else "other" }

/-! ## Helper lemmas -/

/-- The catch block of the checker never touches `currentVersion`. -/
theorem checkCatch_currentVersion (r : RepoInfo) (e : GhError) :
    (checkCatch r e).currentVersion = r.currentVersion := by
  unfold checkCatch
  split_ifs <;> rfl

/-! ## C1 -/

/-- C1 (code-bug demonstration): on a schema-valid document with
`check_tests = false` and `min_test_coverage = 80`, `validateConfig`
returns `valid = true` together with the non-empty semantic contradiction
error list, because `performSemanticValidation` appends to `errors`
without ever resetting `valid`; the specification requires `valid = false`
exactly when errors are non-empty. -/
theorem validateConfig_contradiction_keeps_valid :
    (validateConfig parseContradiction schemaAccepts fsConst "./configs/defaults.json").valid
        = true ∧
    (validateConfig parseContradiction schemaAccepts fsConst "./configs/defaults.json").errors
        = ["Inconsistent configuration: test coverage specified but test checking disabled"] :=
  ⟨rfl, rfl⟩

/-! ## C2 -/

/-- C2: `updateVersionStatus` is a pure per-entry string comparison: an
entry already in status `error` or `missing` is returned unchanged, and
any other entry keeps all its fields except that its status becomes
`up-to-date` exactly when its token equals the authoritative version, the
version with a `v` prefix, or the literal `main`, and `outdated`
otherwise. -/
theorem updateVersionStatus_pure_comparison (central : String) (rs : List RepoInfo) :
    (updateVersionStatus rs central).length = rs.length ∧
    ∀ (i : Nat) (h1 : i < rs.length) (h2 : i < (updateVersionStatus rs central).length),
      ((rs.get ⟨i, h1⟩).status = RStatus.error ∨ (rs.get ⟨i, h1⟩).status = RStatus.missing →
        (updateVersionStatus rs central).get ⟨i, h2⟩ = rs.get ⟨i, h1⟩) ∧
      (¬((rs.get ⟨i, h1⟩).status = RStatus.error ∨ (rs.get ⟨i, h1⟩).status = RStatus.missing) →
        (updateVersionStatus rs central).get ⟨i, h2⟩ =
          { rs.get ⟨i, h1⟩ with status :=
              if (rs.get ⟨i, h1⟩).currentVersion = some central ∨
                 (rs.get ⟨i, h1⟩).currentVersion = some ("v" ++ central) ∨
                 (rs.get ⟨i, h1⟩).currentVersion = some "main"
              then RStatus.upToDate else RStatus.outdated }) := by
  refine ⟨by simp [updateVersionStatus], ?_⟩
  intro i h1 h2
  have hget : (updateVersionStatus rs central).get ⟨i, h2⟩ =
      finalizeOne central (rs.get ⟨i, h1⟩) := by
    simp [updateVersionStatus]
  rw [hget]
  unfold finalizeOne
  constructor
  · intro hs
    rw [if_pos hs]
  · intro hs
    rw [if_neg hs]
    by_cases hv : (rs.get ⟨i, h1⟩).currentVersion = some central ∨
        (rs.get ⟨i, h1⟩).currentVersion = some ("v" ++ central) ∨
        (rs.get ⟨i, h1⟩).currentVersion = some "main"
    · rw [if_pos hv, if_pos hv]
    · rw [if_neg hv, if_neg hv]

/-- Witness for C2 at a concrete entry whose token equals the
authoritative version. -/
theorem updateVersionStatus_pure_comparison_witness :
    ¬(repoInfoEx.status = RStatus.error ∨ repoInfoEx.status = RStatus.missing) ∧
    (updateVersionStatus [repoInfoEx] "1.2.3").get ⟨0, by simp [updateVersionStatus]⟩ =
      { repoInfoEx with status :=
          if repoInfoEx.currentVersion = some "1.2.3" ∨
             repoInfoEx.currentVersion = some ("v" ++ "1.2.3") ∨
             repoInfoEx.currentVersion = some "main"
          then RStatus.upToDate else RStatus.outdated } :=
  ⟨by decide,
   ((updateVersionStatus_pure_comparison "1.2.3" [repoInfoEx]).2 0 (by decide)
      (by simp [updateVersionStatus])).2 (by decide)⟩

/-! ## C3 -/

/-- C3 (counterexample): when the workflow file is fetched and a token
extracted but the later open-pull-request listing fails, the catch sets
status `missing` while `currentVersion` keeps the extracted token, so a
`missing` entry can carry a non-null `currentVersion`. -/
theorem checkRepositoryVersion_version_nonnull_on_pulls_failure :
    (checkRepositoryVersion targetEx checkCallsPullsFail).status = RStatus.missing ∧
    (checkRepositoryVersion targetEx checkCallsPullsFail).currentVersion = some "1.2.3" := by
  constructor <;> decide

/-- The model reproduces the bare-`v` edge of the source: a token
captured as exactly `v` strips to the empty string, which is stored in
`currentVersion` (non-null) while the falsy truthiness test sets status
`error` — even though every remote call succeeded. -/
theorem bareV_token_error_with_empty_version :
    extractVersionFromWorkflow "signinwithethereum/workflow-automation@v" = some "" ∧
    (checkRepositoryVersion targetEx checkCallsBareV).status = RStatus.error ∧
    (checkRepositoryVersion targetEx checkCallsBareV).currentVersion = some "" ∧
    (checkRepositoryVersion targetEx checkCallsBareV).errorMessage =
      some "Could not extract version from workflow file" := by
  refine ⟨by decide, by decide, by decide, by decide⟩

/-- C3 (amended): provided the open-pull-request listing call does not
fail, every entry that ends in status `error` or `missing` has either a
null `currentVersion`, or the empty-string token (a capture of a bare
`v` stripped to `""`, stored non-null with status `error` and the
could-not-extract message) — for every outcome of the installation and
file-fetch calls. -/
theorem checkRepositoryVersion_null_version_unless_pulls_fails
    (t : Target) (c : CheckCalls) (hp : ∀ e, c.pullsList ≠ Except.error e)
    (hst : (checkRepositoryVersion t c).status = RStatus.error ∨
           (checkRepositoryVersion t c).status = RStatus.missing) :
    (checkRepositoryVersion t c).currentVersion = none ∨
    ((checkRepositoryVersion t c).currentVersion = some "" ∧
     (checkRepositoryVersion t c).status = RStatus.error ∧
     (checkRepositoryVersion t c).errorMessage =
       some "Could not extract version from workflow file") := by
  unfold checkRepositoryVersion at hst ⊢
  cases hi : getInstallationOctokitE t.owner t.repo c.installation with
  | error e => simp [hi, checkCatch_currentVersion]
  | ok u =>
    cases hg : c.getContent with
    | error e => simp [hi, hg, checkCatch_currentVersion]
    | ok fd =>
      cases hpl : c.pullsList with
      | error e => exact absurd hpl (hp e)
      | ok pulls =>
        cases fd with
        | none => cases pulls <;> simp [hi, hg, hpl]
        | some content =>
          cases hx : extractVersionFromWorkflow content with
          | none => cases pulls <;> simp [hi, hg, hpl, hx, jsTruthy]
          | some v =>
            by_cases hv : v = ""
            · subst hv
              cases pulls <;> simp [hi, hg, hpl, hx, jsTruthy]
            · exfalso
              cases pulls <;> simp [hi, hg, hpl, hx, jsTruthy, hv] at hst

/-- Witness for C3 at a failing installation lookup with a successful
pull-request listing. -/
theorem checkRepositoryVersion_null_version_unless_pulls_fails_witness :
    (checkRepositoryVersion targetEx checkCallsInstall404).currentVersion = none ∨
    ((checkRepositoryVersion targetEx checkCallsInstall404).currentVersion = some "" ∧
     (checkRepositoryVersion targetEx checkCallsInstall404).status = RStatus.error ∧
     (checkRepositoryVersion targetEx checkCallsInstall404).errorMessage =
       some "Could not extract version from workflow file") :=
  checkRepositoryVersion_null_version_unless_pulls_fails targetEx checkCallsInstall404
    (fun _ h => Except.noConfusion h) (Or.inl rfl)

/-! ## C6 -/

/-- C6 (counterexample): a non-404 failure of the release lookup is
rethrown to the caller, so `getCentralVersion` does raise. -/
theorem getCentralVersion_raises_on_non404 :
    getCentralVersion centralCalls500 = Except.error ⟨some 500, "boom"⟩ :=
  rfl

/-- C6 (amended): `getCentralVersion` returns the release tag with a
leading `v` stripped when the release phase succeeds; when that phase
fails with HTTP 404, it never raises, returning the 7-character commit
prefix (or `unknown` when the fallback fails or yields nothing); but a
non-404 failure of the release phase propagates to the caller. -/
theorem getCentralVersion_fallback_behaviour (c : CentralCalls) :
    (∀ tag, centralTryBlock c = Except.ok tag →
      getCentralVersion c = Except.ok (stripLeadingV tag)) ∧
    (∀ e, centralTryBlock c = Except.error e → e.status = some 404 →
      (∀ commits, centralFallback c = Except.ok commits →
        getCentralVersion c = Except.ok (commitFallback commits)) ∧
      (∀ e2, centralFallback c = Except.error e2 →
        getCentralVersion c = Except.ok "unknown")) ∧
    (∀ e, centralTryBlock c = Except.error e → ¬ e.status = some 404 →
      getCentralVersion c = Except.error e) := by
  refine ⟨?_, ?_, ?_⟩
  · intro tag h
    simp [getCentralVersion, h]
  · intro e he h404
    constructor
    · intro commits hc
      simp [getCentralVersion, he, h404, hc]
    · intro e2 hc
      simp [getCentralVersion, he, h404, hc]
  · intro e he h404
    simp [getCentralVersion, he, h404]

/-- Witness for C6 on the 404 fallback path. -/
theorem getCentralVersion_fallback_behaviour_witness :
    getCentralVersion centralCalls404 = Except.ok (commitFallback ["abcdef1234"]) :=
  ((getCentralVersion_fallback_behaviour centralCalls404).2.1
    ⟨some 404, "Not Found"⟩ rfl rfl).1 ["abcdef1234"] rfl

/-! ## C7 -/

/-- C7 (counterexample): the best-effort label attachment is a remote
operation that is neither of the two already-exists cases, yet its
failure does not fail the target — the target is tallied as a success. -/
theorem label_failure_not_counted_failed :
    callsLabelFail.prLabels = Except.error ⟨some 500, "boom"⟩ ∧
    (processTarget cfgEx targetEx callsLabelFail).1 = POutcome.success ∧
    (runPropagation cfgEx [(targetEx, callsLabelFail)]).1 =
      { success := 1, skipped := 0, failed := 0 } :=
  ⟨rfl, rfl, rfl⟩

/-! ## C8 -/

/-- C8: a target with `enabled = false` makes `updateRepository` return
after its log line with zero remote operations issued, and the run loop
tallies it as skipped (never as failed). -/
theorem disabled_target_skipped_zero_ops (cfg : PropConfig) (owner repo path : String)
    (profile : Option String) (o : UpdateCalls) :
    updateRepositoryM cfg ⟨owner, repo, path, profile, false⟩ o = ⟨Except.ok (), []⟩ ∧
    processTarget cfg ⟨owner, repo, path, profile, false⟩ o = (POutcome.skipped, []) :=
  ⟨rfl, rfl⟩

/-! ## C9 -/

/-- C9 (counterexample): an explicit, existing file argument whose
extension is not `.json` is silently dropped instead of being passed
through unchanged. -/
theorem explicit_non_json_file_dropped :
    discYaml.present "conf.yaml" = true ∧
    discYaml.isDirectory "conf.yaml" = false ∧
    findConfigFiles discYaml ["conf.yaml"] = [] :=
  ⟨rfl, rfl, rfl⟩

/-! ## C4 -/

/-- A list's length splits along a Boolean predicate. -/
theorem length_filter_split (l : List ValidationResult) :
    (l.filter (fun r => r.valid)).length + (l.filter (fun r => !r.valid)).length
      = l.length := by
  induction l with
  | nil => rfl
  | cons a l ih => cases ha : a.valid <;> simp [List.filter_cons, ha] <;> omega

/-- Folding `bumpCount` over a message list adds each message's
multiplicity. -/
theorem foldl_bumpCount (msgs : List String) (f : String → Nat) (m : String) :
    msgs.foldl bumpCount f m = f m + msgs.count m := by
  induction msgs generalizing f with
  | nil => simp
  | cons a l ih =>
      rw [List.foldl_cons, ih]
      simp only [bumpCount, List.count_cons, beq_iff_eq]
      by_cases hm : m = a
      · simp [hm]
        omega
      · simp [hm]
        exact fun h => hm h.symm

/-- The summary fold computes, per message, the total number of
occurrences over all results (under a projection `g`). -/
theorem foldl_summary (g : ValidationResult → List String)
    (results : List ValidationResult) (F : String → Nat) (m : String) :
    (results.foldl (fun f r => (g r).foldl bumpCount f) F) m =
      F m + (results.map (fun r => (g r).count m)).sum := by
  induction results generalizing F with
  | nil => simp
  | cons a l ih =>
      rw [List.foldl_cons, ih, foldl_bumpCount]
      simp only [List.map_cons, List.sum_cons]
      omega

/-- C4 (counterexample): a document whose file-pattern list repeats a
pattern yields the same redundancy warning twice in one result, so the
summary count (2) exceeds the number of results containing the message
(1) — summary counts are occurrence counts, not result counts. -/
theorem summary_counts_overcount_duplicates :
    (runValidator parseDupPatterns schemaAccepts fsConst ["a.json"]).commonWarnings
        (redundantMsg "foo" "f/o") = 2 ∧
    ((runValidator parseDupPatterns schemaAccepts fsConst ["a.json"]).results.countP
        (fun r => decide (redundantMsg "foo" "f/o" ∈ r.warnings))) = 1 := by
  constructor <;> decide

/-- C4 (amended): in every generated report, `totalFiles` equals
`validFiles` plus `invalidFiles`, and for every message the summary maps
it to its total number of occurrences summed over all results' error
(respectively warning) sequences — which coincides with the number of
results containing it whenever no result repeats a message. -/
theorem report_totals_and_summary_occurrences
    (parse : String → Except String CfgDoc) (sv : CfgDoc → SchemaOutcome)
    (fs : FileSys) (files : List String) :
    (runValidator parse sv fs files).totalFiles =
        (runValidator parse sv fs files).validFiles +
        (runValidator parse sv fs files).invalidFiles ∧
    (∀ m, (runValidator parse sv fs files).commonErrors m =
      ((runValidator parse sv fs files).results.map (fun r => r.errors.count m)).sum) ∧
    (∀ m, (runValidator parse sv fs files).commonWarnings m =
      ((runValidator parse sv fs files).results.map (fun r => r.warnings.count m)).sum) := by
  refine ⟨?_, ?_, ?_⟩
  · have h := length_filter_split (files.map (validateConfig parse sv fs))
    simp only [runValidator, List.length_map] at h ⊢
    omega
  · intro m
    simp only [runValidator, generateSummaryErrors]
    exact (foldl_summary (fun r => r.errors) _ _ m).trans (by simp)
  · intro m
    simp only [runValidator, generateSummaryWarnings]
    exact (foldl_summary (fun r => r.warnings) _ _ m).trans (by simp)

/-! ## C9 -/

/-- C9 (amended): discovery resolves each path independently — a
nonexistent path is skipped, a directory contributes its immediate
children with a `.json` extension, and an explicit file contributes
itself exactly when its extension is `.json` (other explicit files are
silently dropped, not passed through). -/
theorem findConfigFiles_resolution (fs : DiscFS) (paths : List String) :
    findConfigFiles fs paths = paths.flatMap (resolvePath fs) := by
  have hstep : ∀ (files : List String) (p : String),
      discoverStep fs files p = files ++ resolvePath fs p := by
    intro files p
    unfold discoverStep resolvePath
    split_ifs with h1 h2 h3 <;>
      first
        | rfl
        | simp
        | (cases fs.readdir p <;> first | rfl | simp)
  have general : ∀ (ps acc : List String),
      ps.foldl (discoverStep fs) acc = acc ++ ps.flatMap (resolvePath fs) := by
    intro ps
    induction ps with
    | nil => intro acc; simp
    | cons p rest ih =>
        intro acc
        rw [List.foldl_cons, hstep, ih, List.flatMap_cons, List.append_assoc]
  simpa [findConfigFiles] using general paths []

/-! ## C10 -/

/-- C10: the validator is a deterministic function of the schema oracle
and each document's content: two file systems agreeing on the examined
paths produce identical reports, so running twice over unchanged inputs
yields byte-identical error and warning sequences in the same order. -/
theorem validateConfig_content_determinism
    (parse : String → Except String CfgDoc) (sv : CfgDoc → SchemaOutcome)
    (fs1 fs2 : FileSys) (files : List String)
    (h : ∀ p ∈ files, fs1.present p = fs2.present p ∧ fs1.read p = fs2.read p) :
    runValidator parse sv fs1 files = runValidator parse sv fs2 files := by
  have hmap : files.map (validateConfig parse sv fs1) =
      files.map (validateConfig parse sv fs2) := by
    apply List.map_congr_left
    intro p hp
    unfold validateConfig
    rw [(h p hp).1, (h p hp).2]
  unfold runValidator
  rw [hmap]

/-- Witness for C10 on two distinct file systems with equal content at
the examined path. -/
theorem validateConfig_content_determinism_witness :
    runValidator parseContradiction schemaAccepts fsW1 ["a.json"] =
      runValidator parseContradiction schemaAccepts fsW2 ["a.json"] :=
  validateConfig_content_determinism _ _ _ _ _ (by
    intro p hp
    simp only [List.mem_singleton] at hp
    subst hp
    exact ⟨rfl, by decide⟩)

/-! ## C5 -/

/-- Pushing a warning leaves the errors untouched. -/
theorem pushWarning_errors (r : ValidationResult) (w : String) :
    (pushWarning r w).errors = r.errors := rfl

/-- Pushing an error leaves the warnings untouched. -/
theorem pushError_warnings (r : ValidationResult) (s : String) :
    (pushError r s).warnings = r.warnings := rfl

/-- Every redundancy message starts with the characters `Po`. -/
theorem redundantMsg_take2 (fp dp : String) :
    (redundantMsg fp dp).toList.take 2 = ['P', 'o'] := by
  obtain ⟨lf⟩ := fp
  obtain ⟨ld⟩ := dp
  rfl

/-- A string not starting with `Po` is never a redundancy message. -/
theorem redundantMsg_ne (fp dp w : String)
    (h : ¬ w.toList.take 2 = ['P', 'o']) : ¬ redundantMsg fp dp = w :=
  fun he => h (by rw [← he, redundantMsg_take2])

/-- The combined disabled-security message starts with `Di`. -/
theorem disabled_take2 (x : String) :
    ("Disabled security checks: " ++ x).toList.take 2 = ['D', 'i'] := by
  obtain ⟨lx⟩ := x
  rfl

/-- Appending a single different message does not change a count. -/
theorem count_append_single_ne (l : List String) (w m : String) (h : ¬ m = w) :
    (l ++ [w]).count m = l.count m := by
  simp [List.count_append, List.count_cons, beq_iff_eq, h]

/-- `pushWarning` with a different message preserves warning counts. -/
theorem count_pushWarning_ne (r : ValidationResult) (w m : String) (h : ¬ m = w) :
    ((pushWarning r w).warnings).count m = r.warnings.count m :=
  count_append_single_ne r.warnings w m h

/-- `pushError` with a different message preserves error counts. -/
theorem count_pushError_ne (r : ValidationResult) (s m : String) (h : ¬ m = s) :
    ((pushError r s).errors).count m = r.errors.count m :=
  count_append_single_ne r.errors s m h

/-- Check 1 of the custom warnings never adds a redundancy message. -/
theorem cwCoverage_count (config : CfgDoc) (r : ValidationResult) (fp dp : String) :
    ((cwCoverage config r).warnings).count (redundantMsg fp dp)
      = r.warnings.count (redundantMsg fp dp) := by
  unfold cwCoverage
  split
  · exact count_pushWarning_ne _ _ _ (redundantMsg_ne fp dp _ (by decide))
  · rfl

/-- Check 2 of the custom warnings never adds a redundancy message. -/
theorem cwComplexity_count (config : CfgDoc) (r : ValidationResult) (fp dp : String) :
    ((cwComplexity config r).warnings).count (redundantMsg fp dp)
      = r.warnings.count (redundantMsg fp dp) := by
  unfold cwComplexity
  split
  · exact count_pushWarning_ne _ _ _ (redundantMsg_ne fp dp _ (by decide))
  · rfl

/-- Check 3 of the custom warnings never adds a redundancy message. -/
theorem cwFunctionLength_count (config : CfgDoc) (r : ValidationResult) (fp dp : String) :
    ((cwFunctionLength config r).warnings).count (redundantMsg fp dp)
      = r.warnings.count (redundantMsg fp dp) := by
  unfold cwFunctionLength
  split
  · exact count_pushWarning_ne _ _ _ (redundantMsg_ne fp dp _ (by decide))
  · rfl

/-- Check 4 of the custom warnings never adds a redundancy message. -/
theorem cwSecurity_count (config : CfgDoc) (r : ValidationResult) (fp dp : String) :
    ((cwSecurity config r).warnings).count (redundantMsg fp dp)
      = r.warnings.count (redundantMsg fp dp) := by
  unfold cwSecurity
  split
  · split
    · exact count_pushWarning_ne _ _ _
        (redundantMsg_ne fp dp _ (by rw [disabled_take2]; decide))
    · rfl
  · rfl

/-- Check 5 of the custom warnings never adds a redundancy message. -/
theorem cwExclusionCount_count (config : CfgDoc) (r : ValidationResult) (fp dp : String) :
    ((cwExclusionCount config r).warnings).count (redundantMsg fp dp)
      = r.warnings.count (redundantMsg fp dp) := by
  unfold cwExclusionCount
  split
  · exact count_pushWarning_ne _ _ _ (redundantMsg_ne fp dp _ (by decide))
  · rfl

/-- Check 6 of the custom warnings never adds a redundancy message. -/
theorem cwResponseLength_count (config : CfgDoc) (r : ValidationResult) (fp dp : String) :
    ((cwResponseLength config r).warnings).count (redundantMsg fp dp)
      = r.warnings.count (redundantMsg fp dp) := by
  unfold cwResponseLength
  split
  · exact count_pushWarning_ne _ _ _ (redundantMsg_ne fp dp _ (by decide))
  · rfl

/-- Check 7 of the custom warnings never adds a redundancy message. -/
theorem cwModel_count (config : CfgDoc) (r : ValidationResult) (fp dp : String) :
    ((cwModel config r).warnings).count (redundantMsg fp dp)
      = r.warnings.count (redundantMsg fp dp) := by
  unfold cwModel
  split
  · split
    · exact count_pushWarning_ne _ _ _ (redundantMsg_ne fp dp _ (by decide))
    · rfl
  · rfl

/-- Check 8 of the custom warnings never adds a redundancy message. -/
theorem cwTypescript_count (config : CfgDoc) (r : ValidationResult) (fp dp : String) :
    ((cwTypescript config r).warnings).count (redundantMsg fp dp)
      = r.warnings.count (redundantMsg fp dp) := by
  unfold cwTypescript
  split
  · exact count_pushWarning_ne _ _ _ (redundantMsg_ne fp dp _ (by decide))
  · rfl

/-- Check 9 of the custom warnings never adds a redundancy message. -/
theorem cwPython_count (config : CfgDoc) (r : ValidationResult) (fp dp : String) :
    ((cwPython config r).warnings).count (redundantMsg fp dp)
      = r.warnings.count (redundantMsg fp dp) := by
  unfold cwPython
  split
  · exact count_pushWarning_ne _ _ _ (redundantMsg_ne fp dp _ (by decide))
  · rfl

/-- The custom best-practice warnings never add a redundancy message. -/
theorem addCustomWarnings_count (config : CfgDoc) (r : ValidationResult) (fp dp : String) :
    ((addCustomWarnings config r).warnings).count (redundantMsg fp dp)
      = r.warnings.count (redundantMsg fp dp) := by
  unfold addCustomWarnings
  rw [cwPython_count, cwTypescript_count, cwModel_count, cwResponseLength_count,
    cwExclusionCount_count, cwSecurity_count, cwFunctionLength_count,
    cwComplexity_count, cwCoverage_count]

/-- The inner loop over directory patterns appends exactly the matching
pair messages, in order. -/
theorem innerLoop_eq (fp : String) (dps : List String) (r : ValidationResult) :
    dps.foldl (fun acc2 dirPattern =>
        if strIncludes fp (jsReplaceFirst dirPattern "/" "") then
          pushWarning acc2 (redundantMsg fp dirPattern) else acc2) r
      = { r with warnings := (r.warnings ++
          (dps.filter (fun dp => strIncludes fp (jsReplaceFirst dp "/" ""))).map
            (redundantMsg fp)) } := by
  induction dps generalizing r with
  | nil => simp
  | cons d l ih =>
      rw [List.foldl_cons]
      by_cases hd : strIncludes fp (jsReplaceFirst d "/" "") = true
      · rw [if_pos hd, ih]
        simp [pushWarning, List.filter_cons, hd]
      · rw [if_neg hd, ih]
        simp [List.filter_cons, hd]

/-- The nested redundant-exclusion loop appends exactly `pairMsgs`. -/
theorem redundantLoop_eq (fps dps : List String) (r : ValidationResult) :
    redundantLoop fps dps r = { r with warnings := r.warnings ++ pairMsgs fps dps } := by
  induction fps generalizing r with
  | nil => simp [redundantLoop, pairMsgs]
  | cons fp l ih =>
      have h1 : redundantLoop (fp :: l) dps r = redundantLoop l dps
          (dps.foldl (fun acc2 dirPattern =>
            if strIncludes fp (jsReplaceFirst dirPattern "/" "") then
              pushWarning acc2 (redundantMsg fp dirPattern) else acc2) r) := rfl
      rw [h1, innerLoop_eq, ih]
      simp [pairMsgs, List.flatMap_cons, List.append_assoc]

/-- Formatting schema errors touches only the error list. -/
theorem foldl_pushError_warnings (errs : List AjvError) (r : ValidationResult) :
    (errs.foldl (fun acc e => pushError acc (formatAjvError e)) r).warnings
      = r.warnings := by
  induction errs generalizing r with
  | nil => rfl
  | cons e l ih => rw [List.foldl_cons, ih, pushError_warnings]

/-- Semantic check 1 touches only the error list. -/
theorem scTestCoverage_warnings (config : CfgDoc) (r : ValidationResult) :
    (scTestCoverage config r).warnings = r.warnings := by
  unfold scTestCoverage
  split <;> rfl

/-- Semantic check 2 touches only the error list. -/
theorem scDocumentation_warnings (config : CfgDoc) (r : ValidationResult) :
    (scDocumentation config r).warnings = r.warnings := by
  unfold scDocumentation
  split <;> rfl

/-- Semantic check 4 touches only the error list. -/
theorem scSlack_warnings (config : CfgDoc) (r : ValidationResult) :
    (scSlack config r).warnings = r.warnings := by
  unfold scSlack
  split
  · split <;> rfl
  · rfl

/-- Semantic check 5 touches only the error list. -/
theorem scDiscord_warnings (config : CfgDoc) (r : ValidationResult) :
    (scDiscord config r).warnings = r.warnings := by
  unfold scDiscord
  split
  · split <;> rfl
  · rfl

/-- When both pattern lists are present, semantic check 3 appends exactly
the matching pair messages to the warnings. -/
theorem scExclusions_warnings_present (config : CfgDoc) (r : ValidationResult)
    (fps dps : List String)
    (hfp : config.exclusions.bind (·.file_patterns) = some fps)
    (hdp : config.exclusions.bind (·.directory_patterns) = some dps) :
    (scExclusions config r).warnings = r.warnings ++ pairMsgs fps dps := by
  simp [scExclusions, hfp, hdp, redundantLoop_eq]

/-- Semantic check 3 never touches the error list. -/
theorem scExclusions_errors (config : CfgDoc) (r : ValidationResult) :
    (scExclusions config r).errors = r.errors := by
  unfold scExclusions
  split
  · rw [redundantLoop_eq]
  · rfl

/-- Semantic check 1 never adds a redundancy message to the errors. -/
theorem scTestCoverage_count (config : CfgDoc) (r : ValidationResult) (fp dp : String) :
    ((scTestCoverage config r).errors).count (redundantMsg fp dp)
      = r.errors.count (redundantMsg fp dp) := by
  unfold scTestCoverage
  split
  · exact count_pushError_ne _ _ _ (redundantMsg_ne fp dp _ (by decide))
  · rfl

/-- Semantic check 2 never adds a redundancy message to the errors. -/
theorem scDocumentation_count (config : CfgDoc) (r : ValidationResult) (fp dp : String) :
    ((scDocumentation config r).errors).count (redundantMsg fp dp)
      = r.errors.count (redundantMsg fp dp) := by
  unfold scDocumentation
  split
  · exact count_pushError_ne _ _ _ (redundantMsg_ne fp dp _ (by decide))
  · rfl

/-- Semantic check 4 never adds a redundancy message to the errors. -/
theorem scSlack_count (config : CfgDoc) (r : ValidationResult) (fp dp : String) :
    ((scSlack config r).errors).count (redundantMsg fp dp)
      = r.errors.count (redundantMsg fp dp) := by
  unfold scSlack
  split
  · split
    · exact count_pushError_ne _ _ _ (redundantMsg_ne fp dp _ (by decide))
    · rfl
  · rfl

/-- Semantic check 5 never adds a redundancy message to the errors. -/
theorem scDiscord_count (config : CfgDoc) (r : ValidationResult) (fp dp : String) :
    ((scDiscord config r).errors).count (redundantMsg fp dp)
      = r.errors.count (redundantMsg fp dp) := by
  unfold scDiscord
  split
  · split
    · exact count_pushError_ne _ _ _ (redundantMsg_ne fp dp _ (by decide))
    · rfl
  · rfl

/-- The semantic validation as a whole never adds a redundancy message to
the errors. -/
theorem psv_count_err (config : CfgDoc) (r : ValidationResult) (fp dp : String) :
    ((performSemanticValidation config r).errors).count (redundantMsg fp dp)
      = r.errors.count (redundantMsg fp dp) := by
  unfold performSemanticValidation
  rw [scDiscord_count, scSlack_count, scExclusions_errors, scDocumentation_count,
    scTestCoverage_count]

/-- When both pattern lists are present, the semantic validation appends
exactly the matching pair messages to the warnings. -/
theorem psv_warnings_present (config : CfgDoc) (r : ValidationResult)
    (fps dps : List String)
    (hfp : config.exclusions.bind (·.file_patterns) = some fps)
    (hdp : config.exclusions.bind (·.directory_patterns) = some dps) :
    (performSemanticValidation config r).warnings = r.warnings ++ pairMsgs fps dps := by
  unfold performSemanticValidation
  rw [scDiscord_warnings, scSlack_warnings,
    scExclusions_warnings_present config _ fps dps hfp hdp,
    scDocumentation_warnings, scTestCoverage_warnings]

/-- Membership of a matching pair's message in `pairMsgs`. -/
theorem mem_pairMsgs (fps dps : List String) (fp dp : String)
    (hfp : fp ∈ fps) (hdp : dp ∈ dps)
    (hc : strIncludes fp (jsReplaceFirst dp "/" "") = true) :
    redundantMsg fp dp ∈ pairMsgs fps dps := by
  unfold pairMsgs
  refine List.mem_flatMap.mpr ⟨fp, hfp, ?_⟩
  exact List.mem_map.mpr ⟨dp, List.mem_filter.mpr ⟨hdp, hc⟩, rfl⟩

/-- C5: for a document carrying both exclusion pattern lists,
`validateConfig` emits one redundancy warning per matching (file pattern,
directory pattern) pair — the message of every matching pair is among the
warnings, the multiplicity of each redundancy message equals its
multiplicity among the pair messages (every pair, not only the first
match), and the semantic validation never emits a redundancy message as
an error. -/
theorem redundant_exclusion_pairs_warned
    (parse : String → Except String CfgDoc) (sv : CfgDoc → SchemaOutcome)
    (fs : FileSys) (path : String) (config : CfgDoc) (fps dps : List String)
    (hpres : fs.present path = true)
    (hparse : parse (fs.read path) = Except.ok config)
    (hfp : config.exclusions.bind (·.file_patterns) = some fps)
    (hdp : config.exclusions.bind (·.directory_patterns) = some dps) :
    (∀ fp ∈ fps, ∀ dp ∈ dps, strIncludes fp (jsReplaceFirst dp "/" "") = true →
      redundantMsg fp dp ∈ (validateConfig parse sv fs path).warnings) ∧
    (∀ fp dp, ((validateConfig parse sv fs path).warnings).count (redundantMsg fp dp)
      = (pairMsgs fps dps).count (redundantMsg fp dp)) ∧
    (∀ config2 r fp dp,
      ((performSemanticValidation config2 r).errors).count (redundantMsg fp dp)
        = r.errors.count (redundantMsg fp dp)) := by
  have hbase : ∃ r0 : ValidationResult, validateConfig parse sv fs path
      = performSemanticValidation config r0 ∧
      (∀ fp dp, (r0.warnings).count (redundantMsg fp dp) = 0) := by
    unfold validateConfig
    rw [hpres]
    simp only [not_true, if_false, ite_false, hparse]
    cases hsv : sv config with
    | valid =>
        refine ⟨_, rfl, ?_⟩
        intro fp dp
        rw [addCustomWarnings_count]
        rfl
    | invalid oerrs =>
        cases oerrs with
        | none => exact ⟨_, rfl, fun fp dp => rfl⟩
        | some errs =>
            refine ⟨_, rfl, ?_⟩
            intro fp dp
            rw [show (errs.foldl (fun acc e => pushError acc (formatAjvError e))
              { file := path, valid := false, errors := [], warnings := [] }).warnings
              = ({ file := path, valid := false, errors := [],
                   warnings := [] } : ValidationResult).warnings
              from foldl_pushError_warnings errs _]
            rfl
  obtain ⟨r0, hR, hcnt⟩ := hbase
  refine ⟨?_, ?_, fun config2 r fp dp => psv_count_err config2 r fp dp⟩
  · intro fp hfpm dp hdpm hc
    rw [hR, psv_warnings_present config r0 fps dps hfp hdp]
    exact List.mem_append_right _ (mem_pairMsgs fps dps fp dp hfpm hdpm hc)
  · intro fp dp
    rw [hR, psv_warnings_present config r0 fps dps hfp hdp, List.count_append,
      hcnt fp dp]
    omega

/-- Witness for C5 at a concrete document with a duplicated matching
pair. -/
theorem redundant_exclusion_pairs_warned_witness :
    redundantMsg "foo" "f/o" ∈
      (validateConfig parseDupPatterns schemaAccepts fsConst "a.json").warnings :=
  (redundant_exclusion_pairs_warned parseDupPatterns schemaAccepts fsConst "a.json"
      _ ["foo", "foo"] ["f/o"] rfl rfl rfl rfl).1
    "foo" (by decide) "f/o" (by decide) (by decide)

/-! ## C7 -/

/-- The loop tally counts, per outcome, exactly the per-target outcomes,
on top of the accumulator. -/
theorem runLoop_tally (cfg : PropConfig) (tos : List (Target × UpdateCalls)) :
    ∀ acc : Tally, (runLoop cfg acc tos).1 =
      ⟨acc.success +
         (tos.map (fun tc => (processTarget cfg tc.1 tc.2).1)).count POutcome.success,
       acc.skipped +
         (tos.map (fun tc => (processTarget cfg tc.1 tc.2).1)).count POutcome.skipped,
       acc.failed +
         (tos.map (fun tc => (processTarget cfg tc.1 tc.2).1)).count POutcome.failed⟩ := by
  induction tos with
  | nil => intro acc; simp [runLoop]
  | cons tc rest ih =>
      intro acc
      have hloop : (runLoop cfg acc (tc :: rest)).1
          = (runLoop cfg (acc.add (processTarget cfg tc.1 tc.2).1) rest).1 := rfl
      rw [hloop, ih]
      cases hoc : (processTarget cfg tc.1 tc.2).1 <;>
        simp [Tally.add, List.count_cons, Tally.mk.injEq, hoc] <;> omega

/-- The trace of the loop is the concatenation, in list order, of the
per-target traces (each target is processed, independently of the
others). -/
theorem runLoop_ops (cfg : PropConfig) (tos : List (Target × UpdateCalls)) :
    ∀ acc : Tally,
      (runLoop cfg acc tos).2 =
        (tos.map (fun tc => (processTarget cfg tc.1 tc.2).2)).flatten := by
  induction tos with
  | nil => intro acc; simp [runLoop]
  | cons tc rest ih => intro acc; simp [runLoop, ih]

/-- The three outcome counts of a list sum to its length. -/
theorem pout_count_sum (l : List POutcome) :
    l.count POutcome.success + l.count POutcome.skipped + l.count POutcome.failed
      = l.length := by
  induction l with
  | nil => rfl
  | cons o rest ih => cases o <;> simp [List.count_cons] <;> omega

/-- C7 (amended): one target's hard failure is isolated — the run tally
decomposes into independent per-target outcomes in list order (so a
failure affects no other target and the loop continues), the three
tallies sum to the number of targets, the trace is the in-order
concatenation of per-target traces, the process exits non-zero exactly
when some target failed, and any throw escaping a target's processing
(every remote failure other than the handled cases: branch already
exists, pull request already exists, best-effort label attachment,
tolerated file-absence 404s) makes exactly that target count as failed. -/
theorem run_tally_isolation_and_exit (cfg : PropConfig)
    (tos : List (Target × UpdateCalls)) :
    ((runPropagation cfg tos).1.success =
        (tos.map (fun tc => (processTarget cfg tc.1 tc.2).1)).count POutcome.success ∧
     (runPropagation cfg tos).1.skipped =
        (tos.map (fun tc => (processTarget cfg tc.1 tc.2).1)).count POutcome.skipped ∧
     (runPropagation cfg tos).1.failed =
        (tos.map (fun tc => (processTarget cfg tc.1 tc.2).1)).count POutcome.failed) ∧
    (runPropagation cfg tos).1.success + (runPropagation cfg tos).1.skipped +
        (runPropagation cfg tos).1.failed = tos.length ∧
    (runPropagation cfg tos).2 =
        (tos.map (fun tc => (processTarget cfg tc.1 tc.2).2)).flatten ∧
    (¬ propagationExitCode cfg tos = 0 ↔ ¬ (runPropagation cfg tos).1.failed = 0) ∧
    (∀ (t : Target) (o : UpdateCalls) (e : GhError),
      (attemptTarget cfg t o).res = Except.error e →
      (processTarget cfg t o).1 = POutcome.failed) := by
  have h := runLoop_tally cfg tos ⟨0, 0, 0⟩
  have hs : (runPropagation cfg tos).1.success =
      (tos.map (fun tc => (processTarget cfg tc.1 tc.2).1)).count POutcome.success := by
    show (runLoop cfg ⟨0, 0, 0⟩ tos).1.success = _
    rw [h]
    simp
  have hk : (runPropagation cfg tos).1.skipped =
      (tos.map (fun tc => (processTarget cfg tc.1 tc.2).1)).count POutcome.skipped := by
    show (runLoop cfg ⟨0, 0, 0⟩ tos).1.skipped = _
    rw [h]
    simp
  have hf : (runPropagation cfg tos).1.failed =
      (tos.map (fun tc => (processTarget cfg tc.1 tc.2).1)).count POutcome.failed := by
    show (runLoop cfg ⟨0, 0, 0⟩ tos).1.failed = _
    rw [h]
    simp
  refine ⟨⟨hs, hk, hf⟩, ?_, ?_, ?_, ?_⟩
  · rw [hs, hk, hf, pout_count_sum, List.length_map]
  · show (runLoop cfg ⟨0, 0, 0⟩ tos).2 = _
    exact runLoop_ops cfg tos ⟨0, 0, 0⟩
  · unfold propagationExitCode
    split <;> omega
  · intro t o e he
    simp [processTarget, he]

/-- Witness for C7 at a concrete oracle whose repository metadata fetch
fails with a non-handled 500. -/
theorem run_tally_isolation_and_exit_witness :
    (processTarget cfgEx targetEx callsRepoGetFail).1 = POutcome.failed :=
  (run_tally_isolation_and_exit cfgEx []).2.2.2.2 targetEx callsRepoGetFail
    ⟨some 500, "down"⟩ rfl

end Wf
